import Mathlib

/-!
Verification development for the kaspa-python-sdk examples and the UTXO
tracking / transaction generation engine they exercise.

The repository source holds the example scripts
(src/examples/transactions/utxo_context_create_transactions.py,
src/examples/transactions/utxo_context_generator.py) and the listener
smoke tests (src/tests/unit/test_utxo_processor_events.py).  The engine
itself (UtxoContext, UtxoProcessor, Generator, create_transactions,
estimate_transactions) lives in the external kaspa SDK and is not part of
the visible source, so it is modelled here from the specification
(spec.md sections 3, 4 and 8).  The control flow of the two example
scripts is embedded directly from the source.
-/

namespace KaspaSdk

/-- Modelled from the spec: identifier of one unspent transaction output,
the pair of transaction id (32-byte hash, abstracted as a natural) and
output index.  Spec section 3: uniquely identified by
(transaction_id, output_index). -/
structure UtxoEntryId where
  transactionId : Nat
  outputIndex : Nat
deriving DecidableEq, Repr

/-- Modelled from the spec: one unspent transaction output record.
Spec section 3 UtxoEntry: amount is an unsigned 64-bit count of the
smallest unit, block_daa_score records creation time for maturity,
is_coinbase selects the maturity threshold.  The script public key is
not needed by any verified property and is omitted. -/
structure UtxoEntry where
  entryId : UtxoEntryId
  amount : Nat
  blockDaaScore : Nat
  isCoinbase : Bool
deriving DecidableEq, Repr

/-- Modelled from the spec: the network parameter table entry
(coinbase_maturity, mass_limit, dust_threshold, fee_model_constants),
spec section 6.  The mass model constants follow the fixed
per-field-size model of spec section 4.3 step 5; the exact constants are
implementation-defined (spec section 9) and are carried as fields. -/
structure NetworkParams where
  coinbaseMaturity : Nat
  regularMaturity : Nat
  massLimit : Nat
  dustThreshold : Nat
  massBase : Nat
  massPerInput : Nat
  massPerOutput : Nat
  feePerMassUnit : Nat
deriving DecidableEq, Repr

/-- Maturity threshold differs for coinbase vs regular outputs
(spec section 3, MaturityState). -/
def maturityThreshold (p : NetworkParams) (isCoinbase : Bool) : Nat :=
  if isCoinbase then p.coinbaseMaturity else p.regularMaturity

/-- Modelled from the spec: derived maturity state.  An entry is pending
if current_daa_score - block_daa_score < maturity_threshold(is_coinbase),
else mature (spec section 3, MaturityState). -/
def isMatureAt (p : NetworkParams) (daa : Nat) (e : UtxoEntry) : Bool :=
  decide (maturityThreshold p e.isCoinbase ≤ daa - e.blockDaaScore)

/-- Modelled from the spec: the totalBalance of a UtxoContext, split into
mature and pending sums, incrementally maintained (spec section 3,
UtxoContext). -/
structure Balance where
  mature : Nat
  pending : Nat
deriving DecidableEq, Repr

/-- Modelled from the spec: the mutable aggregate of a UtxoContext, its
two entry partitions (mature and pending, each kept in insertion order,
oldest first) and the incrementally maintained balance
(spec sections 3 and 4.2). -/
structure UtxoContext where
  mature : List UtxoEntry
  pending : List UtxoEntry
  balance : Balance
deriving DecidableEq, Repr

/-- A freshly created context begins empty (spec section 3, lifecycle). -/
def emptyContext : UtxoContext :=
  { mature := [], pending := [], balance := { mature := 0, pending := 0 } }

/-- Sum of the amounts of a list of entries. -/
def sumAmounts (es : List UtxoEntry) : Nat :=
  (es.map (fun e => e.amount)).sum

/-- Modelled from the spec: handling of a UTXO-added event.  The entry is
inserted into the correct partition (pending unless already mature by DAA
score at insertion) at the end, preserving insertion order, and the
running balance is updated incrementally (spec section 4.1). -/
def applyAdded (p : NetworkParams) (daa : Nat) (ctx : UtxoContext) (e : UtxoEntry) :
    UtxoContext :=
  if isMatureAt p daa e then
    { ctx with
      mature := ctx.mature ++ [e]
      balance := { ctx.balance with mature := ctx.balance.mature + e.amount } }
  else
    { ctx with
      pending := ctx.pending ++ [e]
      balance := { ctx.balance with pending := ctx.balance.pending + e.amount } }

/-- Remove the first entry carrying the given identifier, returning the
remaining list and the removed entry when one was found. -/
def removeFirst (i : UtxoEntryId) : List UtxoEntry → List UtxoEntry × Option UtxoEntry
  | [] => ([], none)
  | e :: rest =>
    if e.entryId = i then (rest, some e)
    else
      let r := removeFirst i rest
      (e :: r.1, r.2)

/-- Modelled from the spec: handling of a UTXO-removed event (spent or
reorged out).  The entry is removed from whichever partition holds it and
the running balance is decremented; if it is found in neither partition
the event is a no-op, not an error (spec sections 4.1 and 7). -/
def applyRemoved (ctx : UtxoContext) (i : UtxoEntryId) : UtxoContext :=
  match removeFirst i ctx.mature with
  | (m, some e) =>
    { ctx with
      mature := m
      balance := { ctx.balance with mature := ctx.balance.mature - e.amount } }
  | (_, none) =>
    match removeFirst i ctx.pending with
    | (q, some e) =>
      { ctx with
        pending := q
        balance := { ctx.balance with pending := ctx.balance.pending - e.amount } }
    | (_, none) => ctx

/-- Modelled from the spec: promotion of pending entries whose DAA-score
depth crossed the maturity threshold into the mature partition, with the
balance split adjusted incrementally (spec sections 4.1 and 8). -/
def promoteMatured (p : NetworkParams) (daa : Nat) (ctx : UtxoContext) : UtxoContext :=
  let promoted := ctx.pending.filter (isMatureAt p daa)
  { mature := ctx.mature ++ promoted
    pending := ctx.pending.filter (fun e => ! isMatureAt p daa e)
    balance :=
      { mature := ctx.balance.mature + sumAmounts promoted
        pending := ctx.balance.pending - sumAmounts promoted } }

/-- Modelled from the spec: the events a UtxoProcessor applies to a
context it owns: UTXO added (with the DAA score at insertion), UTXO
removed, and a block arrival carrying the new DAA score, which drives
maturity promotion (spec section 4.1). -/
inductive UtxoEvent where
  | added (daa : Nat) (e : UtxoEntry)
  | removed (i : UtxoEntryId)
  | blockAdded (daa : Nat)
deriving DecidableEq, Repr

/-- Apply a single event to a context. -/
def applyEvent (p : NetworkParams) (ctx : UtxoContext) : UtxoEvent → UtxoContext
  | .added daa e => applyAdded p daa ctx e
  | .removed i => applyRemoved ctx i
  | .blockAdded daa => promoteMatured p daa ctx

/-- Apply a sequence of events to the empty context. -/
def applyEvents (p : NetworkParams) (evs : List UtxoEvent) : UtxoContext :=
  evs.foldl (applyEvent p) emptyContext

/-- The maintained-balance invariant: each balance component equals the
sum of the amounts of the entries in the corresponding partition. -/
def balanceInvariant (ctx : UtxoContext) : Prop :=
  ctx.balance.mature = sumAmounts ctx.mature ∧
  ctx.balance.pending = sumAmounts ctx.pending

theorem sumAmounts_nil : sumAmounts [] = 0 := rfl

theorem sumAmounts_cons (e : UtxoEntry) (es : List UtxoEntry) :
    sumAmounts (e :: es) = e.amount + sumAmounts es := by
  simp [sumAmounts]

theorem sumAmounts_append (xs ys : List UtxoEntry) :
    sumAmounts (xs ++ ys) = sumAmounts xs + sumAmounts ys := by
  simp [sumAmounts]

theorem removeFirst_some_sum (i : UtxoEntryId) :
    ∀ (es rest : List UtxoEntry) (e : UtxoEntry),
      removeFirst i es = (rest, some e) →
      sumAmounts es = e.amount + sumAmounts rest := by
  intro es
  induction es with
  | nil => intro rest e h; simp [removeFirst] at h
  | cons a as ih =>
    intro rest e h
    by_cases ha : a.entryId = i
    · simp [removeFirst, ha] at h
      rcases h with ⟨h1, h2⟩
      subst h1; subst h2
      exact sumAmounts_cons a as
    · simp [removeFirst, ha] at h
      rcases h with ⟨h1, h2⟩
      subst h1
      have hr : removeFirst i as = ((removeFirst i as).1, (removeFirst i as).2) := rfl
      rw [h2] at hr
      have := ih _ _ hr
      rw [sumAmounts_cons, sumAmounts_cons, this]
      omega

theorem sumAmounts_filter_add (q : UtxoEntry → Bool) (es : List UtxoEntry) :
    sumAmounts (es.filter q) + sumAmounts (es.filter (fun e => ! q e)) = sumAmounts es := by
  induction es with
  | nil => rfl
  | cons a as ih =>
    by_cases hq : q a
    · simp [List.filter, hq, sumAmounts_cons]
      omega
    · simp [List.filter, hq, sumAmounts_cons]
      omega

theorem applyAdded_invariant (p : NetworkParams) (daa : Nat) (ctx : UtxoContext)
    (e : UtxoEntry) (h : balanceInvariant ctx) :
    balanceInvariant (applyAdded p daa ctx e) := by
  rcases h with ⟨hm, hp⟩
  unfold applyAdded
  by_cases hmat : isMatureAt p daa e
  · simp [hmat, balanceInvariant, sumAmounts_append, hm, hp]
    simp [sumAmounts]
  · simp [hmat, balanceInvariant, sumAmounts_append, hm, hp]
    simp [sumAmounts]

theorem applyRemoved_invariant (ctx : UtxoContext) (i : UtxoEntryId)
    (h : balanceInvariant ctx) :
    balanceInvariant (applyRemoved ctx i) := by
  rcases h with ⟨hm, hp⟩
  unfold applyRemoved
  cases hrm : removeFirst i ctx.mature with
  | mk m o =>
    cases o with
    | some e =>
      have hsum := removeFirst_some_sum i ctx.mature m e hrm
      constructor
      · simp [hm, hsum]
      · simpa using hp
    | none =>
      cases hrp : removeFirst i ctx.pending with
      | mk q o2 =>
        cases o2 with
        | some e =>
          have hsum := removeFirst_some_sum i ctx.pending q e hrp
          constructor
          · simpa using hm
          · simp [hp, hsum]
        | none => exact ⟨hm, hp⟩

theorem promoteMatured_invariant (p : NetworkParams) (daa : Nat) (ctx : UtxoContext)
    (h : balanceInvariant ctx) :
    balanceInvariant (promoteMatured p daa ctx) := by
  rcases h with ⟨hm, hp⟩
  have hsplit := sumAmounts_filter_add (isMatureAt p daa) ctx.pending
  constructor
  · simp [promoteMatured, sumAmounts_append, hm]
  · simp [promoteMatured, hp]
    omega

theorem applyEvent_invariant (p : NetworkParams) (ctx : UtxoContext) (ev : UtxoEvent)
    (h : balanceInvariant ctx) :
    balanceInvariant (applyEvent p ctx ev) := by
  cases ev with
  | added daa e => exact applyAdded_invariant p daa ctx e h
  | removed i => exact applyRemoved_invariant ctx i h
  | blockAdded daa => exact promoteMatured_invariant p daa ctx h

theorem applyEvents_invariant (p : NetworkParams) (evs : List UtxoEvent) :
    balanceInvariant (applyEvents p evs) := by
  have hgen : ∀ (l : List UtxoEvent) (c : UtxoContext), balanceInvariant c →
      balanceInvariant (l.foldl (applyEvent p) c) := by
    intro l
    induction l with
    | nil => intro c hc; exact hc
    | cons ev rest ih =>
      intro c hc
      exact ih _ (applyEvent_invariant p c ev hc)
  exact hgen evs emptyContext ⟨rfl, rfl⟩

/-- C1: For every sequence of UTXO-added, UTXO-removed and block events
applied to a UtxoContext, the sum balance.mature + balance.pending equals
the sum of the amounts of all entries currently present in the two
partitions, even though the balance is maintained incrementally and never
recomputed from the partitions. -/
theorem balance_total_eq_present_entries_sum (p : NetworkParams) (evs : List UtxoEvent) :
    (applyEvents p evs).balance.mature + (applyEvents p evs).balance.pending =
      sumAmounts (applyEvents p evs).mature + sumAmounts (applyEvents p evs).pending := by
  rcases applyEvents_invariant p evs with ⟨hm, hp⟩
  rw [hm, hp]

/-- C5: Promoting pending entries whose DAA-score depth crossed the
maturity threshold into the mature partition leaves the total balance
(mature + pending) of a reachable context unchanged; only the split
between the two components changes. -/
theorem promote_preserves_total_balance (p : NetworkParams) (evs : List UtxoEvent)
    (daa : Nat) :
    (promoteMatured p daa (applyEvents p evs)).balance.mature +
        (promoteMatured p daa (applyEvents p evs)).balance.pending =
      (applyEvents p evs).balance.mature + (applyEvents p evs).balance.pending := by
  rcases applyEvents_invariant p evs with ⟨hm, hp⟩
  have hsplit := sumAmounts_filter_add (isMatureAt p daa) (applyEvents p evs).pending
  simp [promoteMatured]
  omega

/-- Modelled from the spec: the error taxonomy of spec section 7
(connection, argument validation, generation-time validation, node
rejection). -/
inductive SdkError where
  | connectionFailed
  | invalidArgument
  | invalidAddress
  | insufficientFunds
  | dustOutput
  | massLimitExceeded
  | rejectedByNode
deriving DecidableEq, Repr

/-- Modelled from the spec: the fee policy of the generator, either a
flat-add priority fee on top of the base fee, or a fee-rate applied to
the transaction mass (spec section 4.3, step 5). -/
inductive FeePolicy where
  | priorityFee (amount : Nat)
  | feeRate (rate : Nat)
deriving DecidableEq, Repr

/-- A requested output of the generator: address and amount
(spec section 4.3, inputs). -/
structure TxOutput where
  address : String
  amount : Nat
deriving DecidableEq, Repr

/-- Modelled from the spec: transaction mass estimated from serialized
input and output sizes using a fixed per-field-size model
(spec section 4.3, step 5); the constants live in NetworkParams. -/
def txMass (p : NetworkParams) (numInputs numOutputs : Nat) : Nat :=
  p.massBase + p.massPerInput * numInputs + p.massPerOutput * numOutputs

/-- The base fee of a transaction of the given mass. -/
def baseFee (p : NetworkParams) (mass : Nat) : Nat :=
  p.feePerMassUnit * mass

/-- Modelled from the spec: fee per transaction, base_fee(mass) +
priority_fee under a priority-fee policy, else fee_rate * mass
(spec section 4.3, step 5). -/
def txFee (p : NetworkParams) (policy : FeePolicy) (numInputs numOutputs : Nat) : Nat :=
  match policy with
  | .priorityFee a => baseFee p (txMass p numInputs numOutputs) + a
  | .feeRate r => r * txMass p numInputs numOutputs

/-- Modelled from the spec: greedy coin selection (spec section 4.3,
step 2).  Entries are consumed from the source strictly in the given
order, accumulating input amount, until the accumulated amount covers
the requested output total plus the fee of the transaction being built
(the fee is recomputed as the input count grows; the output count is the
requested outputs plus one change slot).  When the source is exhausted
first, the run fails with insufficientFunds (spec section 4.3, step 4).
Returns the consumed entry identifiers in order, the accumulated input
amount and the fee. -/
def selectEntries (p : NetworkParams) (policy : FeePolicy) (outTotal numOutputs : Nat) :
    List UtxoEntry → Nat → List UtxoEntryId →
      Except SdkError (List UtxoEntryId × Nat × Nat)
  | [], acc, ids =>
    let fee := txFee p policy ids.length (numOutputs + 1)
    if outTotal + fee ≤ acc then .ok (ids, acc, fee) else .error .insufficientFunds
  | e :: rest, acc, ids =>
    let fee := txFee p policy ids.length (numOutputs + 1)
    if outTotal + fee ≤ acc then .ok (ids, acc, fee)
    else selectEntries p policy outTotal numOutputs rest (acc + e.amount) (ids ++ [e.entryId])

/-- Modelled from the spec: a produced (unsigned, signable) transaction:
the identifiers of the entries it consumes, the requested outputs it
carries, the change output and the fee (spec section 4.3, output). -/
structure PendingTransaction where
  inputIds : List UtxoEntryId
  outputs : List TxOutput
  changeAddress : String
  changeAmount : Nat
  fee : Nat
deriving DecidableEq, Repr

/-- Modelled from the spec: the GeneratorSummary snapshot
(spec section 3): transaction_count, total_fees, aggregated_utxo_count,
total_output_amount. -/
structure GeneratorSummary where
  transactionCount : Nat
  totalFees : Nat
  aggregatedUtxoCount : Nat
  totalOutputAmount : Nat
deriving DecidableEq, Repr

/-- Sum of the amounts of the requested outputs. -/
def outputTotal (outs : List TxOutput) : Nat :=
  (outs.map (fun o => o.amount)).sum

/-- Modelled from the spec: the transaction generation run
(create_transactions of the external kaspa SDK, spec section 4.3).
Validation order: a requested output below the dust threshold is
rejected with dustOutput (not silently dropped); a request whose
outputs cannot fit one transaction is rejected with massLimitExceeded
(the mass-limit-driven chaining of steps 2 and 3 is outside the
modelled fragment, which builds a single transaction); then greedy coin
selection runs, failing with insufficientFunds before any transaction
is produced when the source is exhausted.  Change equals inputs
consumed minus requested outputs minus fee; a change amount below the
dust threshold is omitted and added to the fee (step 6). -/
def create_transactions (p : NetworkParams) (policy : FeePolicy) (changeAddress : String)
    (outputs : List TxOutput) (entries : List UtxoEntry) :
    Except SdkError (List PendingTransaction × GeneratorSummary) :=
  if outputs.any (fun o => decide (o.amount < p.dustThreshold)) then .error .dustOutput
  else if p.massLimit < txMass p 1 (outputs.length + 1) then .error .massLimitExceeded
  else
    match selectEntries p policy (outputTotal outputs) outputs.length entries 0 [] with
    | .error err => .error err
    | .ok (ids, acc, fee) =>
      let changeRaw := acc - (outputTotal outputs + fee)
      let change := if changeRaw < p.dustThreshold then 0 else changeRaw
      let finalFee := if changeRaw < p.dustThreshold then fee + changeRaw else fee
      .ok ([{ inputIds := ids, outputs := outputs, changeAddress := changeAddress,
              changeAmount := change, fee := finalFee }],
           { transactionCount := 1, totalFees := finalFee,
             aggregatedUtxoCount := ids.length,
             totalOutputAmount := outputTotal outputs })

/-- Modelled from the spec: the dry-run estimation
(estimate_transactions of the external kaspa SDK, spec section 4.3).
It runs the identical algorithm — same validation order, same greedy
selection, same fee and change arithmetic — without instantiating
signable transaction objects, returning only the summary. -/
def estimate_transactions (p : NetworkParams) (policy : FeePolicy)
    (changeAddress : String) (outputs : List TxOutput) (entries : List UtxoEntry) :
    Except SdkError GeneratorSummary :=
  if outputs.any (fun o => decide (o.amount < p.dustThreshold)) then .error .dustOutput
  else if p.massLimit < txMass p 1 (outputs.length + 1) then .error .massLimitExceeded
  else
    match selectEntries p policy (outputTotal outputs) outputs.length entries 0 [] with
    | .error err => .error err
    | .ok (ids, acc, fee) =>
      let changeRaw := acc - (outputTotal outputs + fee)
      let finalFee := if changeRaw < p.dustThreshold then fee + changeRaw else fee
      .ok { transactionCount := 1, totalFees := finalFee,
            aggregatedUtxoCount := ids.length,
            totalOutputAmount := outputTotal outputs }

/-- C2: estimate_transactions and create_transactions run the identical
algorithm on the same entry source state, output list, change address
and fee policy, and produce the identical summary — same fee,
transaction_count and total_output_amount (and the identical error on
failure); the only difference is that the estimation never instantiates
the signable transaction objects. -/
theorem estimate_eq_create_summary (p : NetworkParams) (policy : FeePolicy)
    (changeAddress : String) (outputs : List TxOutput) (entries : List UtxoEntry) :
    estimate_transactions p policy changeAddress outputs entries =
      Except.map (fun r => r.2) (create_transactions p policy changeAddress outputs entries) := by
  unfold estimate_transactions create_transactions
  by_cases hdust : outputs.any (fun o => decide (o.amount < p.dustThreshold))
  · simp [hdust, Except.map]
  · by_cases hmass : p.massLimit < txMass p 1 (outputs.length + 1)
    · simp [hdust, hmass, Except.map]
    · simp only [hdust, hmass, if_neg, if_false, Bool.false_eq_true]
      cases hsel : selectEntries p policy (outputTotal outputs) outputs.length entries 0 [] with
      | error err => simp [Except.map]
      | ok r =>
        rcases r with ⟨ids, acc, fee⟩
        simp [Except.map]

theorem txMass_mono_inputs (p : NetworkParams) {i j : Nat} (h : i ≤ j) (k : Nat) :
    txMass p i k ≤ txMass p j k := by
  unfold txMass
  have hm : p.massPerInput * i ≤ p.massPerInput * j := Nat.mul_le_mul_left _ h
  omega

theorem txFee_mono_inputs (p : NetworkParams) (policy : FeePolicy) {i j : Nat}
    (h : i ≤ j) (k : Nat) :
    txFee p policy i k ≤ txFee p policy j k := by
  have hm := txMass_mono_inputs p h k
  cases policy with
  | priorityFee a =>
    have : p.feePerMassUnit * txMass p i k ≤ p.feePerMassUnit * txMass p j k :=
      Nat.mul_le_mul_left _ hm
    simp only [txFee, baseFee]
    omega
  | feeRate r =>
    have : r * txMass p i k ≤ r * txMass p j k := Nat.mul_le_mul_left _ hm
    simp only [txFee]
    omega

theorem selectEntries_insufficient (p : NetworkParams) (policy : FeePolicy)
    (outTotal numOutputs : Nat) :
    ∀ (entries : List UtxoEntry) (acc : Nat) (ids : List UtxoEntryId),
      acc + sumAmounts entries < outTotal + txFee p policy ids.length (numOutputs + 1) →
      selectEntries p policy outTotal numOutputs entries acc ids =
        .error .insufficientFunds := by
  intro entries
  induction entries with
  | nil =>
    intro acc ids h
    rw [sumAmounts_nil] at h
    simp only [selectEntries]
    rw [if_neg (by omega)]
  | cons e rest ih =>
    intro acc ids h
    rw [sumAmounts_cons] at h
    simp only [selectEntries]
    rw [if_neg (by omega)]
    apply ih
    have hlen : (ids ++ [e.entryId]).length = ids.length + 1 := by simp
    have hmono := txFee_mono_inputs p policy
      (by omega : ids.length ≤ ids.length + 1) (numOutputs + 1)
    rw [hlen]
    omega

/-- C3: A generation request that is otherwise valid (no dust output, the
outputs fit the mass limit) but whose total input amount across all
available entries cannot cover the requested outputs plus fees fails with
insufficientFunds; the run returns an error, so no transaction is
produced and nothing can be partially submitted. -/
theorem insufficient_funds_no_transaction (p : NetworkParams) (policy : FeePolicy)
    (changeAddress : String) (outputs : List TxOutput) (entries : List UtxoEntry)
    (hdust : ∀ o ∈ outputs, p.dustThreshold ≤ o.amount)
    (hmass : txMass p 1 (outputs.length + 1) ≤ p.massLimit)
    (hshort : sumAmounts entries <
      outputTotal outputs + txFee p policy 0 (outputs.length + 1)) :
    create_transactions p policy changeAddress outputs entries =
      .error .insufficientFunds := by
  unfold create_transactions
  have h1 : ¬ (outputs.any (fun o => decide (o.amount < p.dustThreshold)) = true) := by
    simp only [List.any_eq_true, decide_eq_true_eq, not_exists, not_and, not_lt]
    intro o ho
    exact hdust o ho
  rw [if_neg h1, if_neg (Nat.not_lt.mpr hmass)]
  rw [selectEntries_insufficient p policy (outputTotal outputs) outputs.length entries 0 []
    (by simpa using hshort)]

def modelParams : NetworkParams :=
  { coinbaseMaturity := 100, regularMaturity := 10, massLimit := 100000,
    dustThreshold := 600, massBase := 100, massPerInput := 1000,
    massPerOutput := 100, feePerMassUnit := 1 }

def destAddr : String := "kaspatest:qqdest"

def changeAddr : String := "kaspatest:qqchange"

def polFlatZero : FeePolicy := .priorityFee 0

def outsSmall : List TxOutput := [{ address := destAddr, amount := 1000 }]

def entsTiny : List UtxoEntry :=
  [{ entryId := { transactionId := 7, outputIndex := 0 }, amount := 50,
     blockDaaScore := 0, isCoinbase := false }]

theorem insufficient_funds_no_transaction_witness :
    create_transactions modelParams polFlatZero changeAddr outsSmall entsTiny =
      .error .insufficientFunds :=
  insufficient_funds_no_transaction modelParams polFlatZero changeAddr outsSmall entsTiny
    (by decide) (by decide) (by decide)

/-- C6: A generation request containing a requested output whose amount
is below the network dust threshold fails with dustOutput — the request
is rejected rather than the output silently dropped — and the run
returns an error, so no transaction is produced. -/
theorem dust_output_rejected (p : NetworkParams) (policy : FeePolicy)
    (changeAddress : String) (outputs : List TxOutput) (entries : List UtxoEntry)
    (h : ∃ o ∈ outputs, o.amount < p.dustThreshold) :
    create_transactions p policy changeAddress outputs entries = .error .dustOutput := by
  unfold create_transactions
  have h1 : outputs.any (fun o => decide (o.amount < p.dustThreshold)) = true := by
    simp only [List.any_eq_true, decide_eq_true_eq]
    exact h
  rw [if_pos h1]

def outsDusty : List TxOutput := [{ address := destAddr, amount := 100 }]

theorem dust_output_rejected_witness :
    create_transactions modelParams polFlatZero changeAddr outsDusty entsTiny =
      .error .dustOutput :=
  dust_output_rejected modelParams polFlatZero changeAddr outsDusty entsTiny (by decide)

theorem selectEntries_ok_spec (p : NetworkParams) (policy : FeePolicy)
    (outTotal numOutputs : Nat) :
    ∀ (entries : List UtxoEntry) (acc : Nat) (ids ids2 : List UtxoEntryId)
      (acc2 fee2 : Nat),
      selectEntries p policy outTotal numOutputs entries acc ids = .ok (ids2, acc2, fee2) →
      ∃ k, k ≤ entries.length ∧
        ids2 = ids ++ (entries.take k).map (fun e => e.entryId) ∧
        acc2 = acc + sumAmounts (entries.take k) ∧
        fee2 = txFee p policy (ids.length + k) (numOutputs + 1) ∧
        outTotal + fee2 ≤ acc2 ∧
        (∀ j, j < k → acc + sumAmounts (entries.take j) <
          outTotal + txFee p policy (ids.length + j) (numOutputs + 1)) := by
  intro entries
  induction entries with
  | nil =>
    intro acc ids ids2 acc2 fee2 h
    simp only [selectEntries] at h
    by_cases hc : outTotal + txFee p policy ids.length (numOutputs + 1) ≤ acc
    · rw [if_pos hc] at h
      simp only [Except.ok.injEq, Prod.mk.injEq] at h
      rcases h with ⟨h1, h2, h3⟩
      refine ⟨0, by simp, ?_, ?_, ?_, ?_, ?_⟩
      · simp [h1.symm]
      · simp [h2.symm, sumAmounts_nil]
      · simp [h3.symm]
      · rw [h3.symm, h2.symm]; exact hc
      · intro j hj; omega
    · rw [if_neg hc] at h
      simp at h
  | cons e rest ih =>
    intro acc ids ids2 acc2 fee2 h
    simp only [selectEntries] at h
    by_cases hc : outTotal + txFee p policy ids.length (numOutputs + 1) ≤ acc
    · rw [if_pos hc] at h
      simp only [Except.ok.injEq, Prod.mk.injEq] at h
      rcases h with ⟨h1, h2, h3⟩
      refine ⟨0, by simp, ?_, ?_, ?_, ?_, ?_⟩
      · simp [h1.symm]
      · simp [h2.symm, sumAmounts_nil]
      · simp [h3.symm]
      · rw [h3.symm, h2.symm]; exact hc
      · intro j hj; omega
    · rw [if_neg hc] at h
      rcases ih (acc + e.amount) (ids ++ [e.entryId]) ids2 acc2 fee2 h with
        ⟨k, hk, hids, hacc, hfee, hstop, hmin⟩
      have hlen : (ids ++ [e.entryId]).length = ids.length + 1 := by simp
      refine ⟨k + 1, by simpa using Nat.add_le_add_right hk 1, ?_, ?_, ?_, hstop, ?_⟩
      · rw [hids, List.take_succ_cons, List.map_cons]
        simp
      · rw [hacc, List.take_succ_cons, sumAmounts_cons]
        omega
      · rw [hfee, hlen]
        have : ids.length + 1 + k = ids.length + (k + 1) := by omega
        rw [this]
      · intro j hj
        cases j with
        | zero =>
          simp only [List.take_zero, sumAmounts_nil, Nat.add_zero]
          omega
        | succ j2 =>
          have hj2 : j2 < k := by omega
          have := hmin j2 hj2
          rw [hlen] at this
          rw [List.take_succ_cons, sumAmounts_cons]
          have hidx : ids.length + 1 + j2 = ids.length + (j2 + 1) := by omega
          rw [hidx] at this
          omega

/-- C4: Whenever a generation run succeeds, the entries it consumed form
a prefix of the source list taken strictly in the given order: there is a
cutoff k such that every produced transaction references exactly the
identifiers of the first k entries (so nothing beyond the consumed
prefix is referenced), the accumulated amount of those k entries covers
the requested outputs plus the fee, and selection stopped as soon as
that held — every shorter run of entries was still insufficient. -/
theorem generator_consumes_entries_in_order (p : NetworkParams) (policy : FeePolicy)
    (changeAddress : String) (outputs : List TxOutput) (entries : List UtxoEntry)
    (txs : List PendingTransaction) (summary : GeneratorSummary)
    (h : create_transactions p policy changeAddress outputs entries = .ok (txs, summary)) :
    ∃ k, k ≤ entries.length ∧
      (∀ tx ∈ txs, tx.inputIds = (entries.take k).map (fun e => e.entryId)) ∧
      outputTotal outputs + txFee p policy k (outputs.length + 1) ≤
        sumAmounts (entries.take k) ∧
      (∀ j, j < k → sumAmounts (entries.take j) <
        outputTotal outputs + txFee p policy j (outputs.length + 1)) := by
  unfold create_transactions at h
  by_cases hdust : outputs.any (fun o => decide (o.amount < p.dustThreshold)) = true
  · rw [if_pos hdust] at h
    simp at h
  · rw [if_neg hdust] at h
    by_cases hmass : p.massLimit < txMass p 1 (outputs.length + 1)
    · rw [if_pos hmass] at h
      simp at h
    · rw [if_neg hmass] at h
      cases hsel : selectEntries p policy (outputTotal outputs) outputs.length entries 0 [] with
      | error err => rw [hsel] at h; simp at h
      | ok r =>
        rcases r with ⟨ids, acc, fee⟩
        rw [hsel] at h
        simp only [Except.ok.injEq, Prod.mk.injEq] at h
        rcases h with ⟨htx, _⟩
        rcases selectEntries_ok_spec p policy (outputTotal outputs) outputs.length
          entries 0 [] ids acc fee hsel with ⟨k, hk, hids, hacc, hfee, hstop, hmin⟩
        refine ⟨k, hk, ?_, ?_, ?_⟩
        · intro tx htxmem
          rw [htx.symm] at htxmem
          simp only [List.mem_singleton] at htxmem
          rw [htxmem]
          simpa using hids
        · rw [hacc, hfee] at hstop
          simpa using hstop
        · intro j hj
          have := hmin j hj
          simpa using this

def entryFive : UtxoEntry :=
  { entryId := { transactionId := 1, outputIndex := 0 }, amount := 500000000,
    blockDaaScore := 0, isCoinbase := false }

def polOneKas : FeePolicy := .priorityFee 100000000

def outsOneKas : List TxOutput := [{ address := destAddr, amount := 100000000 }]

def txFive : PendingTransaction :=
  { inputIds := [{ transactionId := 1, outputIndex := 0 }], outputs := outsOneKas,
    changeAddress := changeAddr, changeAmount := 299998700, fee := 100001300 }

def summaryFive : GeneratorSummary :=
  { transactionCount := 1, totalFees := 100001300, aggregatedUtxoCount := 1,
    totalOutputAmount := 100000000 }

theorem generator_consumes_entries_in_order_witness :
    ∃ k, k ≤ [entryFive].length ∧
      (∀ tx ∈ [txFive], tx.inputIds = ([entryFive].take k).map (fun e => e.entryId)) ∧
      outputTotal outsOneKas + txFee modelParams polOneKas k (outsOneKas.length + 1) ≤
        sumAmounts ([entryFive].take k) ∧
      (∀ j, j < k → sumAmounts ([entryFive].take j) <
        outputTotal outsOneKas + txFee modelParams polOneKas j (outsOneKas.length + 1)) :=
  generator_consumes_entries_in_order modelParams polOneKas changeAddr outsOneKas
    [entryFive] [txFive] summaryFive rfl

/-- C9: On the concrete input of the create-transactions example — a
single entry of amount 500000000 sompi (5 KAS), one requested output of
100000000 sompi (1 KAS) and a priority fee of 100000000 sompi — the
generator produces exactly one transaction, its change equals
500000000 - 100000000 - base_fee - 100000000, and the summary reports
transaction_count = 1. -/
theorem one_kas_example_single_transaction :
    create_transactions modelParams polOneKas changeAddr outsOneKas [entryFive] =
      .ok ([txFive], summaryFive) ∧
    txFive.changeAmount =
      500000000 - 100000000 - baseFee modelParams (txMass modelParams 1 2) - 100000000 ∧
    summaryFive.transactionCount = 1 :=
  ⟨rfl, rfl, rfl⟩

/-- Modelled from the spec: the recognized event kinds a UtxoProcessor
emits (spec section 4.1): connect, disconnect, balance, pending,
maturity, discovery, reorg. -/
def eventKinds : List String :=
  ["connect", "disconnect", "balance", "pending", "maturity", "discovery", "reorg"]

/-- Modelled from the spec: one registered listener — a callback handle
together with its scope, either all event kinds (none) or an explicit
set of event-kind names (spec sections 4.1 and 9). -/
structure EventListener where
  callbackId : Nat
  scope : Option (List String)
deriving DecidableEq, Repr

/-- Modelled from the spec: the listener registry of a UtxoProcessor, a
mapping from event kinds to registered callbacks, represented as the
list of registrations (spec section 9, design notes). -/
structure ListenerRegistry where
  registered : List EventListener
deriving DecidableEq, Repr

/-- Modelled from the spec: register a single callback for all event
kinds (the one-argument add_event_listener overload exercised by
test_add_event_listener_all_overload_smoke). -/
def add_event_listener_all (st : ListenerRegistry) (cb : Nat) : ListenerRegistry :=
  { registered := st.registered ++ [{ callbackId := cb, scope := none }] }

/-- Modelled from the spec: register a callback scoped to one event-kind
name.  An unrecognized name fails with invalidArgument and registers
nothing — the registry is returned only on success (spec section 4.1;
test_add_event_listener_invalid_target_raises). -/
def add_event_listener (st : ListenerRegistry) (target : String) (cb : Nat) :
    Except SdkError ListenerRegistry :=
  if target ∈ eventKinds then
    .ok { registered := st.registered ++ [{ callbackId := cb, scope := some [target] }] }
  else .error .invalidArgument

/-- Modelled from the spec: register a callback scoped to a set of
event-kind names; any unrecognized name fails with invalidArgument and
registers nothing (spec section 4.1). -/
def add_event_listener_scoped (st : ListenerRegistry) (targets : List String) (cb : Nat) :
    Except SdkError ListenerRegistry :=
  if targets.all (fun t => decide (t ∈ eventKinds)) then
    .ok { registered := st.registered ++ [{ callbackId := cb, scope := some targets }] }
  else .error .invalidArgument

/-- Modelled from the spec: full listener removal
(remove_all_event_listeners). -/
def remove_all_event_listeners (st : ListenerRegistry) : ListenerRegistry :=
  { registered := [] }

/-- C7: Registering a callback under an event-kind name that is not one
of the recognized kinds fails with invalidArgument; since the updated
registry is only produced on success, nothing is registered. -/
theorem add_listener_unrecognized_rejected (st : ListenerRegistry) (target : String)
    (cb : Nat) (h : target ∉ eventKinds) :
    add_event_listener st target cb = .error .invalidArgument := by
  unfold add_event_listener
  rw [if_neg h]

def badTarget : String := "not-a-real-event"

theorem add_listener_unrecognized_rejected_witness :
    add_event_listener { registered := [] } badTarget 0 = .error .invalidArgument :=
  add_listener_unrecognized_rejected { registered := [] } badTarget 0 (by decide)

/-- C8: Listener registration accepts all four forms on recognized
kinds: a single callback for all event kinds, a callback scoped to one
recognized event-kind name, a callback scoped to a list of recognized
event-kind names, and full listener removal — each registration form
succeeds (returns a registry extended with the registration, or the
emptied registry for removal), never an error. -/
theorem listener_registration_forms_succeed (st : ListenerRegistry) (cb : Nat)
    (target : String) (targets : List String)
    (h1 : target ∈ eventKinds) (h2 : ∀ t ∈ targets, t ∈ eventKinds) :
    add_event_listener_all st cb =
      { registered := st.registered ++ [{ callbackId := cb, scope := none }] } ∧
    add_event_listener st target cb =
      .ok { registered := st.registered ++ [{ callbackId := cb, scope := some [target] }] } ∧
    add_event_listener_scoped st targets cb =
      .ok { registered := st.registered ++ [{ callbackId := cb, scope := some targets }] } ∧
    remove_all_event_listeners st = { registered := [] } := by
  refine ⟨rfl, ?_, ?_, rfl⟩
  · unfold add_event_listener
    rw [if_pos h1]
  · unfold add_event_listener_scoped
    rw [if_pos (by simpa using h2)]

def twoKinds : List String := ["connect", "disconnect"]

def kindConnect : String := "connect"

theorem listener_registration_forms_succeed_witness :
    add_event_listener_all { registered := [] } 0 =
      { registered := [{ callbackId := 0, scope := none }] } ∧
    add_event_listener { registered := [] } kindConnect 0 =
      .ok { registered := [{ callbackId := 0, scope := some [kindConnect] }] } ∧
    add_event_listener_scoped { registered := [] } twoKinds 0 =
      .ok { registered := [{ callbackId := 0, scope := some twoKinds }] } ∧
    remove_all_event_listeners { registered := [] } = { registered := [] } :=
  listener_registration_forms_succeed { registered := [] } 0 kindConnect twoKinds
    (by decide) (by decide)

/-- The observable actions the two example scripts perform, in the order
the source performs them. -/
inductive ScriptAction where
  | connectClient
  | startProcessor
  | trackAddresses
  | printLine
  | estimateCall
  | createCall
  | buildGenerator
  | signPendingTx
  | submitPendingTx
  | stopProcessor
  | disconnectClient
deriving DecidableEq, Repr

/-- Embedding of main in
src/examples/transactions/utxo_context_create_transactions.py.  The run
is determined by the environment: the mature entry count the context
reports after track_addresses returns, and the number of transactions
the generation run yields.  The script connects, starts the processor
and tracks the source address; when the context holds no mature entries
it prints a message, stops the processor, disconnects and returns early;
otherwise it estimates, creates, then signs and submits each produced
transaction, prints the summary, stops the processor and disconnects. -/
def createTransactionsMain (matureLength txCount : Nat) : List ScriptAction :=
  [.connectClient, .startProcessor, .trackAddresses] ++
  (if matureLength = 0 then
    [.printLine, .stopProcessor, .disconnectClient]
  else
    [.estimateCall, .printLine, .createCall] ++
    (List.replicate txCount
      [ScriptAction.signPendingTx, .submitPendingTx, .printLine]).flatten ++
    [.printLine, .stopProcessor, .disconnectClient])

/-- Embedding of main in
src/examples/transactions/utxo_context_generator.py, determined the same
way.  On the empty-wallet path it prints a message, stops the processor,
disconnects and returns early; otherwise it prints the pending count,
builds a Generator, signs and submits each produced transaction, prints
the summary and the pending count, stops the processor and
disconnects. -/
def generatorMain (matureLength txCount : Nat) : List ScriptAction :=
  [.connectClient, .startProcessor, .trackAddresses] ++
  (if matureLength = 0 then
    [.printLine, .stopProcessor, .disconnectClient]
  else
    [.printLine, .buildGenerator] ++
    (List.replicate txCount
      [ScriptAction.signPendingTx, .submitPendingTx, .printLine]).flatten ++
    [.printLine, .printLine, .stopProcessor, .disconnectClient])

/-- C10: In both example scripts, every run in which the context reports
zero mature entries after track_addresses returns early on a fixed
trace: no Generator is built, create_transactions and
estimate_transactions are never called, no transaction is submitted, and
the script still stops the processor and disconnects the client (in that
order, as the final two actions) before returning. -/
theorem empty_wallet_clean_shutdown (txCount : Nat) :
    createTransactionsMain 0 txCount =
      [.connectClient, .startProcessor, .trackAddresses, .printLine,
       .stopProcessor, .disconnectClient] ∧
    generatorMain 0 txCount =
      [.connectClient, .startProcessor, .trackAddresses, .printLine,
       .stopProcessor, .disconnectClient] ∧
    ScriptAction.buildGenerator ∉ createTransactionsMain 0 txCount ∧
    ScriptAction.createCall ∉ createTransactionsMain 0 txCount ∧
    ScriptAction.estimateCall ∉ createTransactionsMain 0 txCount ∧
    ScriptAction.submitPendingTx ∉ createTransactionsMain 0 txCount ∧
    ScriptAction.buildGenerator ∉ generatorMain 0 txCount ∧
    ScriptAction.submitPendingTx ∉ generatorMain 0 txCount := by
  have h1 : createTransactionsMain 0 txCount =
      [.connectClient, .startProcessor, .trackAddresses, .printLine,
       .stopProcessor, .disconnectClient] := rfl
  have h2 : generatorMain 0 txCount =
      [.connectClient, .startProcessor, .trackAddresses, .printLine,
       .stopProcessor, .disconnectClient] := rfl
  refine ⟨h1, h2, ?_, ?_, ?_, ?_, ?_, ?_⟩
  all_goals first
    | (rw [h1]; decide)
    | (rw [h2]; decide)

end KaspaSdk
